import Mathlib

/-!
Shallow embedding of the chart-candidate extraction pipeline of
`src/processors/url_processor.py` (class `URLProcessor`), together with
theorems settling the specification claims about it.

External collaborators (the `requests` HTTP client, `urllib.parse.urljoin`,
the BeautifulSoup HTML parser and the PIL bitmap codec) are modelled as an
explicit environment record `Env`; the processor's own logic is translated
function by function.
-/

namespace UrlProcessor

/-- A byte string (the payload of an HTTP response, or encoded image data). -/
abbrev Bytes := List Nat

/-- An HTTP response as the code observes it through `requests`:
status code, headers (queried case-insensitively via `headers.get`),
and the raw body `content`. -/
structure Response where
  status : Nat
  headers : List (String × String)
  content : Bytes
deriving Repr, DecidableEq

/-- Python's `str.lower()` on one ASCII character. -/
def lowerChar (c : Char) : Char :=
  if 'A' ≤ c ∧ c ≤ 'Z' then Char.ofNat (c.toNat + 32) else c

/-- Python's `str.lower()` restricted to the ASCII strings (header names and
content types) this code compares. -/
def lowerStr (s : String) : String :=
  String.mk (s.toList.map lowerChar)

/-- Python's `str.startswith(p)` (also the tuple form, used pointwise). -/
def startswith (s p : String) : Bool :=
  p.toList.isPrefixOf s.toList

/-- Python's `str.strip()` (no argument): remove leading and trailing
whitespace. -/
def strip (s : String) : String :=
  String.mk (((s.toList.dropWhile Char.isWhitespace).reverse.dropWhile
    Char.isWhitespace).reverse)

/-- `headers.get(key)` on a `requests` response: case-insensitive lookup
(requests stores headers in a `CaseInsensitiveDict`), `none` when absent. -/
def headerGet (hs : List (String × String)) (key : String) : Option String :=
  (hs.find? (fun p => lowerStr p.1 == lowerStr key)).map (fun p => p.2)

/-- A decoded bitmap as PIL exposes it to this code: pixel dimensions and the
RGB pixel buffer. -/
structure Img where
  width : Nat
  height : Nat
  pixels : List (Nat × Nat × Nat)
deriving Repr, DecidableEq

/-- PIL's documented RGB→L luminance transform (ITU-R 601-2):
`L = (R*299 + G*587 + B*114) / 1000`. -/
def lum : Nat × Nat × Nat → Nat
  | (r, g, b) => (r * 299 + g * 587 + b * 114) / 1000

/-- `image.convert('L')`: the single-channel luminance buffer of the bitmap. -/
def convertL (image : Img) : List Nat :=
  image.pixels.map lum

/-- Minimum of a list of intensities (0 for an empty buffer). -/
def listMin : List Nat → Nat
  | [] => 0
  | x :: xs => xs.foldl Nat.min x

/-- Maximum of a list of intensities (0 for an empty buffer). -/
def listMax : List Nat → Nat
  | [] => 0
  | x :: xs => xs.foldl Nat.max x

/-- `gray.getextrema()`: the pair (min, max) of single-channel intensities. -/
def getextrema (gray : List Nat) : Nat × Nat :=
  (listMin gray, listMax gray)

/-- `URLProcessor._is_potential_chart`: accept when the whole-image contrast
(max minus min luminance) exceeds 50 and the smaller dimension exceeds 200. -/
def is_potential_chart (image : Img) : Bool :=
  let gray := convertL image
  let stats := getextrema gray
  let contrast := stats.2 - stats.1
  let min_dimension := Nat.min image.width image.height
  decide (contrast > 50) && decide (min_dimension > 200)

/-- An HTML node as BeautifulSoup exposes it: an element with a tag name,
attributes and children, or a bare text string. -/
inductive Node where
  | elem (name : String) (attrs : List (String × String)) (children : List Node)
  | text (s : String)

/-- `tag.get(key, default)`: attribute lookup on an element. -/
def Node.getAttr (n : Node) (key : String) (default : String) : String :=
  match n with
  | .elem _ attrs _ => (((attrs.find? (fun p => p.1 == key)).map (fun p => p.2))).getD default
  | .text _ => default

/-- The external collaborators consumed by `URLProcessor`, as the code calls
them.  `get`/`getFollow` are `requests.get` without / with automatic redirect
following; `none` models a raised network exception.  `parse` is
`BeautifulSoup(content, 'html.parser')` (total: it never throws on malformed
markup).  `decode` is `PIL.Image.open` (`none` models a decode exception) and
`encodePNG` is `image.save(..., format='PNG')`. -/
structure Env where
  get : String → Option Response
  getFollow : String → Option Response
  urljoin : String → String → String
  parse : Bytes → Node
  decode : Bytes → Option Img
  encodePNG : Img → Bytes

/-- `self.max_redirects` set in `URLProcessor.__init__`. -/
def max_redirects : Nat := 5

/-- `self.allowed_schemes` set in `URLProcessor.__init__`. -/
def allowed_schemes : List String := ["http", "https"]

/-- `self.allowed_content_types` set in `URLProcessor.__init__`. -/
def allowed_content_types : List String :=
  ["image/png", "image/jpeg", "image/jpg", "image/gif"]

/-- `response.raise_for_status()` followed by `return response, url`:
`requests` raises `HTTPError` exactly when `400 <= status < 600`, and the
enclosing `except` clause of `_get_with_redirects` turns that into `None`. -/
def raise_for_status_result (response : Response) (url : String) :
    Option (Response × String) :=
  if 400 ≤ response.status ∧ response.status < 600 then none
  else some (response, url)

/-- Body of `URLProcessor._get_with_redirects`, written as structural
recursion on the fuel `max_redirects - redirect_count` (the quantity the
Python recursion strictly decreases).  `fuel = 0` is exactly the guard
`redirect_count >= self.max_redirects`, which returns `None`. -/
def get_with_redirects_go (env : Env) (fuel : Nat) (url : String) :
    Option (Response × String) :=
  match fuel with
  | 0 => none
  | fuel + 1 =>
    match env.get url with
    | none => none
    | some response =>
      if response.status ∈ [301, 302, 303, 307, 308] then
        match headerGet response.headers "Location" with
        | some redirect_url =>
          if redirect_url ≠ "" then
            let redirect_url :=
              if startswith redirect_url "http://" || startswith redirect_url "https://" then
                redirect_url
              else env.urljoin url redirect_url
            get_with_redirects_go env fuel redirect_url
          else raise_for_status_result response url
        | none => raise_for_status_result response url
      else raise_for_status_result response url

/-- `URLProcessor._get_with_redirects(url, redirect_count)`: fetch with manual
redirect handling; `none` models the `None` returns (bound hit, non-success
status, or any exception caught by the `except` clause). -/
def get_with_redirects (env : Env) (url : String) (redirect_count : Nat) :
    Option (Response × String) :=
  get_with_redirects_go env (max_redirects - redirect_count) url

/-- Call depth of `get_with_redirects_go`: 1 for the current invocation plus
the depth of the recursive call, mirroring the recursion of
`_get_with_redirects` exactly. -/
def get_with_redirects_go_depth (env : Env) (fuel : Nat) (url : String) : Nat :=
  match fuel with
  | 0 => 1
  | fuel + 1 =>
    match env.get url with
    | none => 1
    | some response =>
      if response.status ∈ [301, 302, 303, 307, 308] then
        match headerGet response.headers "Location" with
        | some redirect_url =>
          if redirect_url ≠ "" then
            let redirect_url :=
              if startswith redirect_url "http://" || startswith redirect_url "https://" then
                redirect_url
              else env.urljoin url redirect_url
            1 + get_with_redirects_go_depth env fuel redirect_url
          else 1
        | none => 1
      else 1

/-- Recursion depth of `_get_with_redirects` when entered with a given
`redirect_count`. -/
def get_with_redirects_depth (env : Env) (url : String) (redirect_count : Nat) : Nat :=
  get_with_redirects_go_depth env (max_redirects - redirect_count) url

/-- The URLs actually fetched (passed to `requests.get`) by
`_get_with_redirects`, in order. -/
def get_with_redirects_fetches (env : Env) (fuel : Nat) (url : String) : List String :=
  match fuel with
  | 0 => []
  | fuel + 1 =>
    url ::
      (match env.get url with
      | none => []
      | some response =>
        if response.status ∈ [301, 302, 303, 307, 308] then
          match headerGet response.headers "Location" with
          | some redirect_url =>
            if redirect_url ≠ "" then
              let redirect_url :=
                if startswith redirect_url "http://" || startswith redirect_url "https://" then
                  redirect_url
                else env.urljoin url redirect_url
              get_with_redirects_fetches env fuel redirect_url
            else []
          | none => []
        else [])

/-- The characters CPython's `urllib.parse` accepts inside a scheme
(letters, digits, `+`, `-`, `.`). -/
def scheme_char (c : Char) : Bool :=
  c.isAlpha || c.isDigit || c == '+' || c == '-' || c == '.'

/-- The `scheme` component of `urllib.parse.urlparse(s)`: the lower-cased
prefix before the first `:` when that prefix starts with an ASCII letter and
consists only of scheme characters; otherwise the empty string. -/
def urlparse_scheme (s : String) : String :=
  let cs := s.toList
  match cs.findIdx? (fun c => c == ':') with
  | none => ""
  | some i =>
    if 0 < i ∧ (cs.take i).all scheme_char ∧ (cs.headD ' ').isAlpha then
      lowerStr (String.mk (cs.take i))
    else ""

/-- Python's `\s` class over ASCII: space, tab, newline, carriage return,
form feed, vertical tab. -/
def ws_char (c : Char) : Bool :=
  c == ' ' || c == '\t' || c == '\n' || c == '\x0d' || c == '\x0c' || c == '\x0b'

/-- `re.match(r'^https?://[^\s/$.?#].[^\s]*$', s)` as a Boolean: after the
scheme prefix come one character outside `\s/$.?#`, one character other than
newline, then non-whitespace characters up to the end (`$` also matches just
before a single trailing newline). -/
def re_match_image_url (s : String) : Bool :=
  let tail_ok : List Char → Bool := fun rest =>
    rest.all (fun c => !ws_char c) ||
      (match rest.reverse with
       | '\n' :: front => front.all (fun c => !ws_char c)
       | _ => false)
  let after : List Char → Bool := fun cs =>
    match cs with
    | c1 :: c2 :: rest =>
      !(ws_char c1 || c1 == '/' || c1 == '$' || c1 == '.' || c1 == '?' || c1 == '#') &&
        !(c2 == '\n') && tail_ok rest
    | _ => false
  if startswith s "http://" then after (s.toList.drop 7)
  else if startswith s "https://" then after (s.toList.drop 8)
  else false

/-- `URLProcessor._normalize_url(base_url, src)`: rewrite protocol-relative
references to `https`, resolve relative references against the page URL,
then require an allowed scheme, no space, and a match of the structural
regex; `none` models every `return None`. -/
def normalize_url (env : Env) (base_url : String) (src : String) : Option String :=
  let src := if startswith src "//" then "https:" ++ src else src
  let src :=
    if !(startswith src "http://" || startswith src "https://") then
      env.urljoin base_url src
    else src
  if !(allowed_schemes.contains (urlparse_scheme src)) then none
  else if src.toList.contains ' ' || !re_match_image_url src then none
  else some src

/-- `content_type = img_response.headers.get('content-type', '').lower()`
followed by the membership test in `self.allowed_content_types`. -/
def content_type_ok (img_response : Response) : Bool :=
  allowed_content_types.contains
    (lowerStr ((headerGet img_response.headers "content-type").getD ""))

/-- `soup.find_all('img')`, each tag paired with its ancestor chain
(innermost ancestor first, ending at the document root), in document order
(depth-first pre-order, as BeautifulSoup yields them). -/
def findImgs (anc : List Node) : Node → List (Node × List Node)
  | .text _ => []
  | .elem name attrs children =>
    (if name == "img" then [(Node.elem name attrs children, anc)] else []) ++
      findImgsList (Node.elem name attrs children :: anc) children
where
  /-- Document-order scan of a forest of siblings. -/
  findImgsList (anc : List Node) : List Node → List (Node × List Node)
  | [] => []
  | c :: cs => findImgs anc c ++ findImgsList anc cs

/-- `tag.find(name)` restricted to a forest: the first descendant element
with the given tag name in document order (depth-first pre-order, as
BeautifulSoup searches), `none` when there is none. -/
def findFirstIn (name : String) : List Node → Option Node
  | [] => none
  | c :: rest =>
    match findFirstInNode name c with
    | some r => some r
    | none => findFirstIn name rest
where
  /-- Search one node: the node itself, then its descendants. -/
  findFirstInNode (name : String) : Node → Option Node
  | .text _ => none
  | .elem nm attrs ch =>
    if nm == name then some (Node.elem nm attrs ch)
    else findFirstIn name ch

/-- `tag.get_text(strip=True)`: the concatenation of all descendant text
strings, each stripped of surrounding whitespace. -/
def getTextStrip : Node → String
  | .text s => strip s
  | .elem _ _ ch => getTextStripList ch
where
  /-- `get_text` over a forest of children. -/
  getTextStripList : List Node → String
  | [] => ""
  | c :: cs => getTextStrip c ++ getTextStripList cs

/-- One step of the caption walk: when the node is a `figure` element that
has a `figcaption` descendant, the first such descendant. -/
def figcaptionOf : Node → Option Node
  | .elem name _ ch => if name == "figure" then findFirstIn "figcaption" ch else none
  | .text _ => none

/-- The `while current_tag:` loop of `_find_caption`: the stripped text of
the `figcaption` of the first chain member that is a `figure` containing
one. -/
def captionFromChain : List Node → Option String
  | [] => none
  | n :: rest =>
    match figcaptionOf n with
    | some fc => some (getTextStrip fc)
    | none => captionFromChain rest

/-- `URLProcessor._find_caption(img_tag)`: walk from the tag through its
ancestors looking for a `figure` with a `figcaption`; fall back to the `alt`
attribute, then to the empty string. -/
def find_caption (img_tag : Node) (ancestors : List Node) : String :=
  match captionFromChain (img_tag :: ancestors) with
  | some t => t
  | none =>
    let alt := img_tag.getAttr "alt" ""
    if alt ≠ "" then alt else ""

/-- A `ChartCandidate` record as appended to `charts` in `extract_charts`. -/
structure Chart where
  image_data : Bytes
  url : String
  alt_text : String
  caption : String
deriving Repr, DecidableEq

/-- The part of the per-image loop body after the content-type test: decode
the payload (`Image.open`), apply `_is_potential_chart`, and on acceptance
re-encode as PNG and build the candidate record. -/
def decode_and_filter (env : Env) (img : Node) (anc : List Node)
    (img_response : Response) (final_url : String) : Option Chart :=
  match env.decode img_response.content with
  | none => none
  | some image =>
    if is_potential_chart image then
      some
        { image_data := env.encodePNG image
          url := final_url
          alt_text := img.getAttr "alt" ""
          caption := find_caption img anc }
    else none

/-- The body of the per-image loop of `extract_charts` for one `<img>` tag:
`none` models every `continue` (empty or `data:` source, normalization
rejection, download failure, disallowed content-type, decode failure,
heuristic rejection, or any caught exception). -/
def process_img (env : Env) (page_url : String) (img : Node) (anc : List Node) :
    Option Chart :=
  let src := img.getAttr "src" ""
  if src == "" || startswith src "data:" then none
  else
    match normalize_url env page_url src with
    | none => none
    | some image_url =>
      match get_with_redirects env image_url 0 with
      | none => none
      | some (img_response, final_url) =>
        if content_type_ok img_response then
          decode_and_filter env img anc img_response final_url
        else none

/-- The URLs fetched over the network while processing one `<img>` tag. -/
def process_img_fetches (env : Env) (page_url : String) (img : Node) : List String :=
  let src := img.getAttr "src" ""
  if src == "" || startswith src "data:" then []
  else
    match normalize_url env page_url src with
    | none => []
    | some image_url => get_with_redirects_fetches env max_redirects image_url

/-- The fatal outcomes of `extract_charts`: a raised network exception from
the page-level `requests.get`, or the `HTTPError` raised by
`response.raise_for_status()`; both are re-raised by the outer handler. -/
inductive ExtractError where
  | network
  | httpStatus (code : Nat)
deriving Repr, DecidableEq

/-- `URLProcessor.extract_charts(url)`: fetch the page (redirects followed
automatically), `raise_for_status`, parse the HTML, and fold the per-image
pipeline over all `<img>` tags in document order. -/
def extract_charts (env : Env) (url : String) : Except ExtractError (List Chart) :=
  match env.getFollow url with
  | none => .error .network
  | some response =>
    if 400 ≤ response.status ∧ response.status < 600 then
      .error (.httpStatus response.status)
    else
      let soup := env.parse response.content
      let images := findImgs [] soup
      .ok (images.filterMap (fun p => process_img env url p.1 p.2))

/-! ### Concrete test fixtures

Concrete environments, documents and bitmaps used to instantiate the
theorems below on explicit inputs. -/

/-- URL number `i` of a concrete redirect chain. -/
def chainUrlW (i : Nat) : String := "http://chain.example/" ++ toString i

/-- A 302 response redirecting chain URL `i` to chain URL `i+1`. -/
def redirRespW (i : Nat) : Response := ⟨302, [("Location", chainUrlW (i + 1))], []⟩

/-- A successful PNG response. -/
def okRespW : Response := ⟨200, [("content-type", "image/png")], [7, 7]⟩

/-- An environment whose server redirects chain URL 0 → 1 → 2 → 3 → 4 → 5 and
answers chain URL 5 with a successful PNG response: a well-formed redirect
chain of exactly 5 hops starting at chain URL 0. -/
def envChainW : Env :=
  { get := fun u =>
      if u = chainUrlW 5 then some okRespW
      else if u = chainUrlW 0 then some (redirRespW 0)
      else if u = chainUrlW 1 then some (redirRespW 1)
      else if u = chainUrlW 2 then some (redirRespW 2)
      else if u = chainUrlW 3 then some (redirRespW 3)
      else if u = chainUrlW 4 then some (redirRespW 4)
      else none
    getFollow := fun _ => none
    urljoin := fun _ r => r
    parse := fun _ => .text ""
    decode := fun _ => none
    encodePNG := fun _ => [] }

/-- A 301 response that carries no `Location` header at all. -/
def respNoLocW : Response := ⟨301, [("content-type", "image/png")], [1]⟩

/-- An environment whose server answers one URL with a 301 response that has
no `Location` header. -/
def envNoLocW : Env :=
  { get := fun u => if u = "http://r.example/a" then some respNoLocW else none
    getFollow := fun _ => none
    urljoin := fun _ r => r
    parse := fun _ => .text ""
    decode := fun _ => none
    encodePNG := fun _ => [] }

/-- An environment whose top-level page fetch yields a final response with
status 304 (a non-2xx status outside the 4xx/5xx range) and an image-free
document. -/
def envPage304W : Env :=
  { get := fun _ => none
    getFollow := fun u => if u = "http://p.example/" then some ⟨304, [], []⟩ else none
    urljoin := fun _ r => r
    parse := fun _ => .elem "[document]" [] [.text "not modified"]
    decode := fun _ => none
    encodePNG := fun _ => [] }

/-- An environment whose top-level page fetch yields a 404 final status. -/
def envPage404W : Env :=
  { get := fun _ => none
    getFollow := fun u => if u = "http://p.example/" then some ⟨404, [], []⟩ else none
    urljoin := fun _ r => r
    parse := fun _ => .text ""
    decode := fun _ => none
    encodePNG := fun _ => [] }

/-- A chart-like decoded bitmap: 300×300 with full-range luminance. -/
def chartImgW : Img := ⟨300, 300, [(0, 0, 0), (255, 255, 255)]⟩

/-- First `<img>` tag of the two-image page (its download will fail). -/
def imgOneW : Node := .elem "img" [("src", "http://a.example/one.png"), ("alt", "One")] []

/-- Second `<img>` tag of the two-image page (its download will succeed). -/
def imgTwoW : Node := .elem "img" [("src", "http://a.example/two.png"), ("alt", "Two")] []

/-- Document with two images, in this order. -/
def docTwoW : Node := .elem "[document]" [] [imgOneW, imgTwoW]

/-- A successful HTML page response. -/
def pageRespW : Response := ⟨200, [("content-type", "text/html")], [1]⟩

/-- Environment for the two-image page: the first image's download raises a
network exception, the second succeeds and decodes to a chart-like bitmap. -/
def envTwoW : Env :=
  { get := fun u => if u = "http://a.example/two.png" then some ⟨200, [("content-type", "image/png")], [9]⟩ else none
    getFollow := fun u => if u = "http://p.example/" then some pageRespW else none
    urljoin := fun _ r => r
    parse := fun b => if b = [1] then docTwoW else .text ""
    decode := fun b => if b = [9] then some chartImgW else none
    encodePNG := fun _ => [42] }

/-- The one candidate the two-image page yields (from the second image). -/
def chartTwoW : Chart := ⟨[42], "http://a.example/two.png", "Two", "Two"⟩

/-- An `<img>` tag whose URL ends in `.png` but whose server will declare
`image/svg+xml`. -/
def imgSvgW : Node := .elem "img" [("src", "http://a.example/fake.png")] []

/-- Environment serving an SVG-typed response at a `.png`-named URL. -/
def envSvgW : Env :=
  { get := fun u =>
      if u = "http://a.example/fake.png" then
        some ⟨200, [("content-type", "image/svg+xml")], [8]⟩
      else none
    getFollow := fun _ => none
    urljoin := fun _ r => r
    parse := fun _ => .text ""
    decode := fun _ => some chartImgW
    encodePNG := fun _ => [42] }

/-- A large bitmap with luminance range 10 (flat): 500×500, gray levels
100 and 110. -/
def imgFlatW : Img := ⟨500, 500, [(100, 100, 100), (110, 110, 110)]⟩

/-- A high-contrast bitmap whose smaller dimension is only 150. -/
def imgNarrowW : Img := ⟨150, 900, [(0, 0, 0), (255, 255, 255)]⟩

/-- Inner figcaption of the nested-figure fixture. -/
def innerCapW : Node := .elem "figcaption" [] [.text " Inner caption "]

/-- Outer figcaption of the nested-figure fixture. -/
def outerCapW : Node := .elem "figcaption" [] [.text "Outer caption"]

/-- The `<img>` tag inside both figures. -/
def imgTagW : Node := .elem "img" [("src", "http://a.example/c.png"), ("alt", "AltA")] []

/-- Inner `<figure>`, containing the image and the inner figcaption. -/
def innerFigW : Node := .elem "figure" [] [imgTagW, innerCapW]

/-- Outer `<figure>`, containing the inner figure and the outer figcaption. -/
def outerFigW : Node := .elem "figure" [] [innerFigW, outerCapW]

/-- An `<img>` tag whose source is an inline-encoded data reference. -/
def imgDataW : Node :=
  .elem "img" [("src", "data:image/png;base64,iVBORw0KGgo="), ("alt", "inline")] []

/-- A fully inert environment (every collaborator fails or returns nothing). -/
def envTrivW : Env :=
  { get := fun _ => none
    getFollow := fun _ => none
    urljoin := fun _ r => r
    parse := fun _ => .text ""
    decode := fun _ => none
    encodePNG := fun _ => [] }

/-- The `<img>` tag of the round-trip page. -/
def imgNineW : Node := .elem "img" [("src", "http://img.example/chart.png"), ("alt", "A chart")] []

/-- Round-trip document: one image tag. -/
def docNineW : Node := .elem "[document]" [] [imgNineW]

/-- Round-trip environment: the one image downloads with an allowed content
type, decodes to the chart-like bitmap `chartImgW`, and the PNG re-encoding
of that bitmap decodes back to it. -/
def envNineW : Env :=
  { get := fun u => if u = "http://img.example/chart.png" then some ⟨200, [("content-type", "image/png")], [3]⟩ else none
    getFollow := fun u => if u = "http://page.example/" then some pageRespW else none
    urljoin := fun _ r => r
    parse := fun b => if b = [1] then docNineW else .text ""
    decode := fun b => if b = [3] then some chartImgW else if b = [4] then some chartImgW else none
    encodePNG := fun _ => [4] }

/-! ### Helper lemmas (shared) -/

/-- A string with prefix `http://` is not empty. -/
theorem startsWith_http_ne_empty (s : String) (h : startswith s "http://" = true) :
    s ≠ "" := by
  intro he
  rw [he] at h
  exact absurd h (by decide)

/-- When the page fetch yields a response that `raise_for_status` accepts,
`extract_charts` returns the per-image pipeline folded over the page's
`<img>` tags in document order. -/
theorem extract_charts_of_page (env : Env) (url : String) (response : Response)
    (hpage : env.getFollow url = some response)
    (hok : ¬(400 ≤ response.status ∧ response.status < 600)) :
    extract_charts env url =
      .ok ((findImgs [] (env.parse response.content)).filterMap
        (fun p => process_img env url p.1 p.2)) := by
  simp [extract_charts, hpage, hok]

/-- Unfolding of the per-image pipeline after a successful download: the
content-type test is the sole remaining gate before decoding. -/
theorem process_img_after_download (env : Env) (page_url : String) (img : Node)
    (anc : List Node) (image_url final_url : String) (img_response : Response)
    (hsrc : (img.getAttr "src" "" == "" || startswith (img.getAttr "src" "") "data:") = false)
    (hnorm : normalize_url env page_url (img.getAttr "src" "") = some image_url)
    (hdl : get_with_redirects env image_url 0 = some (img_response, final_url)) :
    process_img env page_url img anc =
      if content_type_ok img_response then
        decode_and_filter env img anc img_response final_url
      else none := by
  simp [process_img, hsrc, hnorm, hdl]

/-- The chart heuristic accepts exactly when the whole-image luminance range
exceeds 50 and the smaller dimension exceeds 200. -/
theorem is_potential_chart_eq_true_iff (image : Img) :
    is_potential_chart image = true ↔
      (50 < listMax (image.pixels.map lum) - listMin (image.pixels.map lum) ∧
        200 < Nat.min image.width image.height) := by
  simp [is_potential_chart, convertL, getextrema]

/-- The call depth of the redirect loop is bounded by its fuel plus one. -/
theorem go_depth_le (env : Env) :
    ∀ (fuel : Nat) (url : String), get_with_redirects_go_depth env fuel url ≤ fuel + 1 := by
  intro fuel
  induction fuel with
  | zero => intro url; simp [get_with_redirects_go_depth]
  | succ m ih =>
    intro url
    simp only [get_with_redirects_go_depth]
    split
    · omega
    · split
      · split
        · split
          · exact le_trans (Nat.add_le_add_left (ih _) 1) (by omega)
          · omega
        · omega
      · omega

/-- A redirect chain `chain 0 → chain 1 → ⋯ → chain n` whose final URL
answers with status 200 resolves, given enough fuel, to the final response
paired with `chain n`. -/
theorem go_chain_resolves (env : Env) (chain : Nat → String) (resp : Nat → Response)
    (n : Nat) (final : Response)
    (hget : ∀ i, i < n → env.get (chain i) = some (resp i))
    (hstat : ∀ i, i < n → (resp i).status ∈ [301, 302, 303, 307, 308])
    (hloc : ∀ i, i < n → headerGet (resp i).headers "Location" = some (chain (i + 1)))
    (habs : ∀ i, i < n → startswith (chain (i + 1)) "http://" = true)
    (hfin : env.get (chain n) = some final)
    (hfinstat : final.status = 200) :
    ∀ fuel k, k ≤ n → n - k < fuel →
      get_with_redirects_go env fuel (chain k) = some (final, chain n) := by
  intro fuel
  induction fuel with
  | zero => intro k _ h2; omega
  | succ m ih =>
    intro k hk hlt
    rcases Nat.lt_or_ge k n with hk' | hk'
    · have hr := hget k hk'
      have hs := hstat k hk'
      have hl := hloc k hk'
      have ha := habs k hk'
      have hne : chain (k + 1) ≠ "" := startsWith_http_ne_empty _ ha
      simp only [get_with_redirects_go, hr, hl]
      rw [if_pos hs, if_pos hne]
      simp only [ha, Bool.true_or, if_true]
      exact ih (k + 1) (by omega) (by omega)
    · have hkn : k = n := Nat.le_antisymm hk hk'
      subst hkn
      have hnotr : ¬(final.status ∈ [301, 302, 303, 307, 308]) := by
        rw [hfinstat]; decide
      have hnot4 : ¬(400 ≤ final.status ∧ final.status < 600) := by omega
      simp only [get_with_redirects_go, hfin]
      rw [if_neg hnotr]
      simp [raise_for_status_result, hnot4]

/-- A redirect chain still redirecting for at least `fuel` further hops
exhausts any `fuel` and yields `none`. -/
theorem go_chain_exhausts (env : Env) (chain : Nat → String) (resp : Nat → Response)
    (n : Nat)
    (hget : ∀ i, i < n → env.get (chain i) = some (resp i))
    (hstat : ∀ i, i < n → (resp i).status ∈ [301, 302, 303, 307, 308])
    (hloc : ∀ i, i < n → headerGet (resp i).headers "Location" = some (chain (i + 1)))
    (habs : ∀ i, i < n → startswith (chain (i + 1)) "http://" = true) :
    ∀ fuel k, k + fuel ≤ n → get_with_redirects_go env fuel (chain k) = none := by
  intro fuel
  induction fuel with
  | zero => intro k _; rfl
  | succ m ih =>
    intro k hkf
    have hk' : k < n := by omega
    have hr := hget k hk'
    have hs := hstat k hk'
    have hl := hloc k hk'
    have ha := habs k hk'
    have hne : chain (k + 1) ≠ "" := startsWith_http_ne_empty _ ha
    simp only [get_with_redirects_go, hr, hl]
    rw [if_pos hs, if_pos hne]
    simp only [ha, Bool.true_or, if_true]
    exact ih (k + 1) (by omega)

/-! ### Claim theorems -/

/-- C10: for every environment (hence every server redirect behaviour,
including cyclic chains) and every starting URL, `_get_with_redirects`
terminates: it returns `None` as soon as the hop counter has reached
`max_redirects`, its call depth from a counter value `redirect_count` is at
most `max_redirects - redirect_count + 1`, and from the initial counter 0 the
recursion depth never exceeds `max_redirects + 1`. -/
theorem get_with_redirects_terminates (env : Env) (url : String) (redirect_count : Nat) :
    (max_redirects ≤ redirect_count → get_with_redirects env url redirect_count = none) ∧
    get_with_redirects_depth env url redirect_count ≤
      max_redirects - redirect_count + 1 ∧
    get_with_redirects_depth env url 0 ≤ max_redirects + 1 := by
  refine ⟨?_, ?_, ?_⟩
  · intro h
    have hz : max_redirects - redirect_count = 0 := by omega
    simp [get_with_redirects, hz, get_with_redirects_go]
  · exact go_depth_le env (max_redirects - redirect_count) url
  · have h := go_depth_le env (max_redirects - 0) url
    simpa [get_with_redirects_depth] using h

/-- C10 witness: on the concrete chain environment, entering with hop counter
7 (≥ 5) returns `None` immediately, and the depth from counter 0 is at
most 6. -/
theorem get_with_redirects_terminates_w :
    get_with_redirects envChainW (chainUrlW 0) 7 = none ∧
    get_with_redirects_depth envChainW (chainUrlW 0) 0 ≤ 6 := by
  have h := get_with_redirects_terminates envChainW (chainUrlW 0) 7
  exact ⟨h.1 (by decide), h.2.2⟩

/-- C1 counterexample: in `envChainW`, chain URL 0 starts a well-formed
redirect chain of exactly 5 hops ending at chain URL 5, which answers with a
successful PNG response; the claim asserts that a chain of at most 5 hops
succeeds with the final URL, but the downloader returns `None` for it (while
the 4-hop chain starting at chain URL 1 does succeed). -/
theorem five_hop_chain_rejected :
    get_with_redirects envChainW (chainUrlW 0) 0 = none ∧
    envChainW.get (chainUrlW 5) = some okRespW ∧
    get_with_redirects envChainW (chainUrlW 1) 0 = some (okRespW, chainUrlW 5) := by
  refine ⟨by decide, rfl, by decide⟩

/-- C1 (amended): for a well-formed redirect chain of `n` hops whose final
URL answers with status 200, the download succeeds if `n ≤ 4`, and the
candidate `url` is then the exact URL that produced the final successful
response; the hop-counter check runs before each fetch with the counter
starting at 0, so a chain of 5 or more hops is excluded (`None` — not an
error, so the rest of the extraction continues). -/
theorem redirect_chain_resolution (env : Env) (chain : Nat → String)
    (resp : Nat → Response) (n : Nat) (final : Response)
    (hget : ∀ i, i < n → env.get (chain i) = some (resp i))
    (hstat : ∀ i, i < n → (resp i).status ∈ [301, 302, 303, 307, 308])
    (hloc : ∀ i, i < n → headerGet (resp i).headers "Location" = some (chain (i + 1)))
    (habs : ∀ i, i < n → startswith (chain (i + 1)) "http://" = true)
    (hfin : env.get (chain n) = some final)
    (hfinstat : final.status = 200) :
    (n ≤ 4 → get_with_redirects env (chain 0) 0 = some (final, chain n)) ∧
    (5 ≤ n → get_with_redirects env (chain 0) 0 = none) := by
  have hm : max_redirects = 5 := rfl
  constructor
  · intro h
    have hres := go_chain_resolves env chain resp n final hget hstat hloc habs hfin
      hfinstat (max_redirects - 0) 0 (by omega) (by omega)
    exact hres
  · intro h
    have hnone := go_chain_exhausts env chain resp n hget hstat hloc habs
      (max_redirects - 0) 0 (by omega)
    exact hnone

/-- C1 witness: applying the amended theorem to the concrete chain
environment, the 2-hop chain starting at chain URL 3 resolves to the final
response at chain URL 5, and the 5-hop chain starting at chain URL 0 is
excluded. -/
theorem redirect_chain_resolution_w :
    get_with_redirects envChainW (chainUrlW 3) 0 = some (okRespW, chainUrlW 5) ∧
    get_with_redirects envChainW (chainUrlW 0) 0 = none := by
  constructor
  · exact (redirect_chain_resolution envChainW (fun i => chainUrlW (i + 3))
      (fun i => redirRespW (i + 3)) 2 okRespW
      (by decide) (by decide) (by decide) (by decide) (by decide) (by decide)).1
      (by decide)
  · exact (redirect_chain_resolution envChainW chainUrlW redirRespW 5 okRespW
      (by decide) (by decide) (by decide) (by decide) (by decide) (by decide)).2
      (by decide)

/-- C2 counterexample: `envNoLocW` answers one URL with a 301 response
carrying no `Location` header; the claim asserts the downloader returns
`None`, but it returns the 301 response itself paired with that URL. -/
theorem redirect_without_location_cex :
    headerGet respNoLocW.headers "Location" = none ∧
    get_with_redirects envNoLocW "http://r.example/a" 0 =
      some (respNoLocW, "http://r.example/a") := by
  refine ⟨rfl, by decide⟩

/-- C2 (amended): on a response with a standard redirect status code but no
`Location` header (and the hop bound not yet reached), the downloader falls
through to `raise_for_status`, which does not raise for 3xx statuses, and so
returns the redirect response itself paired with the current URL — a
non-`None` result, not a failure. -/
theorem redirect_without_location_returns_response (env : Env) (url : String)
    (redirect_count : Nat) (response : Response)
    (hcount : redirect_count < max_redirects)
    (hget : env.get url = some response)
    (hstat : response.status ∈ [301, 302, 303, 307, 308])
    (hloc : headerGet response.headers "Location" = none) :
    get_with_redirects env url redirect_count = some (response, url) := by
  have hm : max_redirects = 5 := rfl
  have hfuel : ∃ m, max_redirects - redirect_count = m + 1 := by
    refine ⟨max_redirects - redirect_count - 1, by omega⟩
  obtain ⟨m, hmfuel⟩ := hfuel
  have hnot4 : ¬(400 ≤ response.status ∧ response.status < 600) := by
    simp only [List.mem_cons, List.not_mem_nil, or_false] at hstat
    omega
  unfold get_with_redirects
  rw [hmfuel]
  simp only [get_with_redirects_go, hget, hloc]
  rw [if_pos hstat]
  simp [raise_for_status_result, hnot4]

/-- C2 witness: the amended theorem applied to the concrete no-`Location`
environment. -/
theorem redirect_without_location_returns_response_w :
    get_with_redirects envNoLocW "http://r.example/a" 0 =
      some (respNoLocW, "http://r.example/a") :=
  redirect_without_location_returns_response envNoLocW "http://r.example/a" 0
    respNoLocW (by decide) rfl (by decide) rfl

/-- C4 counterexample: the top-level page fetch ends with final status 304 —
a non-2xx status — yet the extraction is not aborted: it returns an
(empty) result list normally, because `raise_for_status` raises only for
statuses in the 4xx/5xx range. -/
theorem non2xx_page_not_fatal :
    envPage304W.getFollow "http://p.example/" = some ⟨304, [], []⟩ ∧
    extract_charts envPage304W "http://p.example/" = .ok [] :=
  ⟨rfl, rfl⟩

/-- C4 (amended): the top-level page fetch is fatal exactly when the fetch
raises a network error or the final status lies in the 4xx/5xx range
(`400 ≤ status < 600`, the statuses `raise_for_status` raises for); for any
other final status — including non-2xx statuses such as 304 — the extraction
proceeds and returns the per-image pipeline's results. -/
theorem page_fetch_error_policy (env : Env) (url : String) :
    (env.getFollow url = none → extract_charts env url = .error .network) ∧
    ∀ response, env.getFollow url = some response →
      (400 ≤ response.status ∧ response.status < 600 →
        extract_charts env url = .error (.httpStatus response.status)) ∧
      (¬(400 ≤ response.status ∧ response.status < 600) →
        extract_charts env url =
          .ok ((findImgs [] (env.parse response.content)).filterMap
            (fun p => process_img env url p.1 p.2))) := by
  constructor
  · intro h
    simp [extract_charts, h]
  · intro response hresp
    constructor
    · intro h4
      simp [extract_charts, hresp, h4]
    · intro h4
      exact extract_charts_of_page env url response hresp h4

/-- C4 witness: a network error and a 404 final status abort the whole
extraction, while a 304 final status does not. -/
theorem page_fetch_error_policy_w :
    extract_charts envTrivW "http://p.example/" = .error .network ∧
    extract_charts envPage404W "http://p.example/" = .error (.httpStatus 404) ∧
    extract_charts envPage304W "http://p.example/" = .ok [] := by
  refine ⟨?_, ?_, ?_⟩
  · exact (page_fetch_error_policy envTrivW "http://p.example/").1 rfl
  · exact ((page_fetch_error_policy envPage404W "http://p.example/").2
      ⟨404, [], []⟩ rfl).1 (by decide)
  · have h := ((page_fetch_error_policy envPage304W "http://p.example/").2
      ⟨304, [], []⟩ rfl).2 (by decide)
    rw [h]
    rfl

/-- C3: when the page fetch succeeds, the result is the per-image pipeline
folded independently over the page's `<img>` tags in document order, wrapped
in a normal (non-error) return; in particular, if any one tag's pipeline
fails (`none`), the result is exactly the surviving candidates of the tags
before and after it, still in document order and still without any
exception. -/
theorem per_item_isolation (env : Env) (url : String) (response : Response)
    (hpage : env.getFollow url = some response)
    (hok : ¬(400 ≤ response.status ∧ response.status < 600)) :
    extract_charts env url =
      .ok ((findImgs [] (env.parse response.content)).filterMap
        (fun p => process_img env url p.1 p.2)) ∧
    ∀ pre item post,
      findImgs [] (env.parse response.content) = pre ++ item :: post →
      process_img env url item.1 item.2 = none →
      extract_charts env url =
        .ok (pre.filterMap (fun p => process_img env url p.1 p.2) ++
          post.filterMap (fun p => process_img env url p.1 p.2)) := by
  have hbase := extract_charts_of_page env url response hpage hok
  refine ⟨hbase, ?_⟩
  intro pre item post hsplit hnone
  rw [hbase, hsplit]
  simp [List.filterMap_append, List.filterMap_cons, hnone]

/-- C3 witness: on the two-image page, the first image's download raises a
(simulated) network error, yet the second image's candidate is returned, in
document order, with no exception. -/
theorem per_item_isolation_w :
    process_img envTwoW "http://p.example/" imgOneW [docTwoW] = none ∧
    extract_charts envTwoW "http://p.example/" = .ok [chartTwoW] := by
  refine ⟨rfl, ?_⟩
  have h := (per_item_isolation envTwoW "http://p.example/" pageRespW rfl
    (by decide)).2 [] (imgOneW, [docTwoW]) [(imgTwoW, [docTwoW])] rfl rfl
  rw [h]
  rfl

/-- C5: once an image's download has succeeded, the content-type allow-list
test is the sole gate to further processing: the per-image pipeline proceeds
to decoding exactly when the declared `content-type` header (lower-cased) is
in `allowed_content_types`, and the decision reads only the response — never
the URL string, so file-extension hints are irrelevant. -/
theorem content_type_filter (env : Env) (page_url : String) (img : Node)
    (anc : List Node) (image_url final_url : String) (img_response : Response)
    (hsrc : (img.getAttr "src" "" == "" ||
      startswith (img.getAttr "src" "") "data:") = false)
    (hnorm : normalize_url env page_url (img.getAttr "src" "") = some image_url)
    (hdl : get_with_redirects env image_url 0 = some (img_response, final_url)) :
    process_img env page_url img anc =
      (if content_type_ok img_response then
        decode_and_filter env img anc img_response final_url
      else none) ∧
    content_type_ok img_response =
      allowed_content_types.contains
        (lowerStr ((headerGet img_response.headers "content-type").getD "")) :=
  ⟨process_img_after_download env page_url img anc image_url final_url
    img_response hsrc hnorm hdl, rfl⟩

/-- C5 witness: a URL named `.png` but served as `image/svg+xml` is
excluded. -/
theorem content_type_filter_w :
    process_img envSvgW "http://p.example/" imgSvgW [] = none := by
  have h := (content_type_filter envSvgW "http://p.example/" imgSvgW []
    "http://a.example/fake.png" "http://a.example/fake.png"
    ⟨200, [("content-type", "image/svg+xml")], [8]⟩
    (by decide) (by decide) (by decide)).1
  rw [h]
  rfl

/-- C6: the chart heuristic accepts a decoded bitmap exactly when its
whole-image luminance range (max minus min single-channel intensity) exceeds
50 and the smaller of width and height exceeds 200 pixels; in particular a
bitmap with luminance range at most 50 is rejected whatever its size, and a
bitmap whose smaller dimension is at most 200 is rejected whatever its
contrast. -/
theorem chart_heuristic_iff (image : Img) :
    (is_potential_chart image = true ↔
      (50 < listMax (image.pixels.map lum) - listMin (image.pixels.map lum) ∧
        200 < Nat.min image.width image.height)) ∧
    (listMax (image.pixels.map lum) - listMin (image.pixels.map lum) ≤ 50 →
      is_potential_chart image = false) ∧
    (Nat.min image.width image.height ≤ 200 → is_potential_chart image = false) := by
  have h := is_potential_chart_eq_true_iff image
  refine ⟨h, ?_, ?_⟩
  · intro hc
    cases hb : is_potential_chart image with
    | false => rfl
    | true => exact absurd (h.mp hb).1 (by omega)
  · intro hd
    cases hb : is_potential_chart image with
    | false => rfl
    | true => exact absurd (h.mp hb).2 (by omega)

/-- C6 witness: the flat 500×500 bitmap (luminance range 10) is rejected
despite its size, and the 150×900 full-contrast bitmap is rejected despite
its contrast. -/
theorem chart_heuristic_iff_w :
    is_potential_chart imgFlatW = false ∧ is_potential_chart imgNarrowW = false :=
  ⟨(chart_heuristic_iff imgFlatW).2.1 (by decide),
    (chart_heuristic_iff imgNarrowW).2.2 (by decide)⟩

/-- The caption walk resolves to the first chain member that is a `figure`
with a `figcaption` descendant. -/
theorem captionFromChain_first (pre : List Node) (fig : Node) (rest : List Node)
    (fc : Node)
    (hpre : ∀ m ∈ pre, (figcaptionOf m).isNone = true)
    (hfig : figcaptionOf fig = some fc) :
    captionFromChain (pre ++ fig :: rest) = some (getTextStrip fc) := by
  induction pre with
  | nil => simp [captionFromChain, hfig]
  | cons a as ih =>
    have ha : figcaptionOf a = none :=
      Option.isNone_iff_eq_none.mp (hpre a (by simp))
    simp only [List.cons_append, captionFromChain, ha]
    exact ih (fun m hm => hpre m (by simp [hm]))

/-- The caption walk yields nothing on a chain with no figure/figcaption
pair. -/
theorem captionFromChain_none (l : List Node)
    (h : ∀ m ∈ l, (figcaptionOf m).isNone = true) :
    captionFromChain l = none := by
  induction l with
  | nil => rfl
  | cons a as ih =>
    have ha : figcaptionOf a = none :=
      Option.isNone_iff_eq_none.mp (h a (by simp))
    simp only [captionFromChain, ha]
    exact ih (fun m hm => h m (by simp [hm]))

/-- C7: caption resolution walks up from the image tag and returns the
stripped text of the `figcaption` of the innermost enclosing `figure` that
contains one (so with nested figures each holding a figcaption, the inner
one wins); when no enclosing figure/figcaption pair exists anywhere in the
chain, the result is the tag's `alt` attribute, which defaults to the empty
string — the result is always a string value. -/
theorem caption_resolution (img_tag : Node) (ancestors : List Node) :
    (∀ pre fig rest fc,
      img_tag :: ancestors = pre ++ fig :: rest →
      (∀ m ∈ pre, (figcaptionOf m).isNone = true) →
      figcaptionOf fig = some fc →
      find_caption img_tag ancestors = getTextStrip fc) ∧
    ((∀ m ∈ img_tag :: ancestors, (figcaptionOf m).isNone = true) →
      find_caption img_tag ancestors = img_tag.getAttr "alt" "") := by
  constructor
  · intro pre fig rest fc hchain hpre hfig
    unfold find_caption
    rw [hchain, captionFromChain_first pre fig rest fc hpre hfig]
  · intro hall
    unfold find_caption
    rw [captionFromChain_none _ hall]
    by_cases ha : img_tag.getAttr "alt" "" = ""
    · simp [ha]
    · simp [ha]

/-- C7 witness: for the image nested in two figures that each carry a
figcaption, the resolved caption is the inner figcaption's (stripped) text,
not the outer one's. -/
theorem caption_resolution_w :
    find_caption imgTagW [innerFigW, outerFigW] = "Inner caption" := by
  have h := (caption_resolution imgTagW [innerFigW, outerFigW]).1
    [imgTagW] innerFigW [outerFigW] innerCapW rfl (by decide) rfl
  rw [h]
  rfl

/-- C8: for an `<img>` tag whose `src` is an inline-encoded data reference
(starts with `data:`), the per-image pipeline performs no network fetch at
all (its fetch trace is empty) and contributes no candidate (`none`, which
`extract_charts`' `filterMap` drops from the result). -/
theorem data_url_never_fetched (env : Env) (page_url : String) (img : Node)
    (anc : List Node)
    (h : startswith (img.getAttr "src" "") "data:" = true) :
    process_img env page_url img anc = none ∧
    process_img_fetches env page_url img = [] := by
  constructor
  · simp [process_img, h]
  · simp [process_img_fetches, h]

/-- C8 witness: a concrete `data:`-source image yields no fetch and no
candidate. -/
theorem data_url_never_fetched_w :
    process_img envTrivW "http://p.example/" imgDataW [] = none ∧
    process_img_fetches envTrivW "http://p.example/" imgDataW = [] :=
  data_url_never_fetched envTrivW "http://p.example/" imgDataW [] (by decide)

/-- C9: for a page with exactly one `<img>` tag whose (mocked) download
succeeds with an allowed content type and decodes to a chart-like bitmap
(luminance range above 50, smaller dimension above 200), `extract_charts`
returns exactly one candidate, and decoding that candidate's `image_data`
yields a bitmap with the same pixel width and height as the original. -/
theorem chart_roundtrip (env : Env) (page_url image_url final_url : String)
    (page_resp img_resp : Response) (img_tag : Node) (anc : List Node)
    (image image2 : Img)
    (hpage : env.getFollow page_url = some page_resp)
    (hst : page_resp.status = 200)
    (himgs : findImgs [] (env.parse page_resp.content) = [(img_tag, anc)])
    (hsrc : (img_tag.getAttr "src" "" == "" ||
      startswith (img_tag.getAttr "src" "") "data:") = false)
    (hnorm : normalize_url env page_url (img_tag.getAttr "src" "") = some image_url)
    (hdl : get_with_redirects env image_url 0 = some (img_resp, final_url))
    (hct : content_type_ok img_resp = true)
    (hdec : env.decode img_resp.content = some image)
    (hlum : 50 < listMax (image.pixels.map lum) - listMin (image.pixels.map lum))
    (hdim : 200 < Nat.min image.width image.height)
    (hround : env.decode (env.encodePNG image) = some image2)
    (hw : image2.width = image.width) (hh : image2.height = image.height) :
    ∃ c, extract_charts env page_url = .ok [c] ∧
      (env.decode c.image_data).map (fun i => (i.width, i.height)) =
        some (image.width, image.height) := by
  have hchart : is_potential_chart image = true :=
    (is_potential_chart_eq_true_iff image).mpr ⟨hlum, hdim⟩
  have hok : ¬(400 ≤ page_resp.status ∧ page_resp.status < 600) := by omega
  have hbase := extract_charts_of_page env page_url page_resp hpage hok
  have hpi := process_img_after_download env page_url img_tag anc image_url
    final_url img_resp hsrc hnorm hdl
  simp only [hct, if_true] at hpi
  refine ⟨{ image_data := env.encodePNG image, url := final_url,
            alt_text := img_tag.getAttr "alt" "",
            caption := find_caption img_tag anc }, ?_, ?_⟩
  · rw [hbase, himgs]
    simp [hpi, decode_and_filter, hdec, hchart]
  · simp [hround, hw, hh]

/-- C9 witness: the concrete round-trip environment yields exactly one
candidate whose re-encoded bytes decode back to a 300×300 bitmap, the
dimensions of the original. -/
theorem chart_roundtrip_w :
    ∃ c, extract_charts envNineW "http://page.example/" = .ok [c] ∧
      (envNineW.decode c.image_data).map (fun i => (i.width, i.height)) =
        some (300, 300) :=
  chart_roundtrip envNineW "http://page.example/" "http://img.example/chart.png"
    "http://img.example/chart.png" pageRespW
    ⟨200, [("content-type", "image/png")], [3]⟩ imgNineW [docNineW]
    chartImgW chartImgW rfl rfl rfl (by decide) (by decide) (by decide) rfl rfl
    (by decide) (by decide) rfl rfl rfl

end UrlProcessor
